import Mathlib

/-!
# vhs: JSON formats, HTTP response record and output pipe

A shallow embedding of

* `jsonx/jsonx.go`   : `inputFormat.Init`, `outputFormat.Init`, `bufferedOutputFormat.Init`
* `http/response.go` : the `Response` record and its JSON struct tags
* `output/pipe.go`   : `NewPipe`, `Pipe.Init`

Goroutines and channels are embedded as explicit state passing.  A `select`
loop is driven by the list of events it services, in the order it services
them; a `for ... range ch` loop is driven by the list of values the channel
delivers before it is closed.  A send on `ctx.Errors` or on an outbound channel
appends to a log: the external consumer of the channel is taken to receive
every value sent.
-/

namespace Vhs

/-! ## Go errors -/

/-- Go `error` values, as far as the code inspects them: the sentinel `io.EOF`,
any other leaf error, and an error wrapping another via `fmt.Errorf("...: %w", err)`. -/
inductive GoError where
  | EOF : GoError
  | other (msg : String) : GoError
  | wrap (msg : String) (cause : GoError) : GoError
  deriving DecidableEq, Repr

/-- The call `errors.Is(err, io.EOF)` for a non-nil `err`: true when `err` is
`io.EOF` or wraps it at any depth. -/
def GoError.isEOF : GoError → Bool
  | .EOF => true
  | .other _ => false
  | .wrap _ cause => cause.isEOF

/-! ## Records and envelopes -/

/-- A value travelling through the pipeline (`interface{}` in the source).
`kind` is `some k` exactly when the dynamic type of the value implements
`envelope.Kindify`, and then `k` is what its `Kind()` method returns. -/
structure Record (α : Type) where
  value : α
  kind : Option String
  deriving DecidableEq, Repr

/-- Modelled from the spec: the `envelope` package is not part of the sources at
hand.  A value seen through the interface `envelope.Kindify`: the record itself
together with the kind name it declares. -/
structure Kindify (α : Type) where
  self : Record α
  Kind : String
  deriving DecidableEq, Repr

/-- Modelled from the spec: the `envelope` package is not part of the sources at
hand.  An `Envelope` is "a structure holding the record plus its declared kind
name". -/
structure Envelope (α : Type) where
  Kind : String
  Data : Record α
  deriving DecidableEq, Repr

/-- Modelled from the spec: `envelope.New` is not part of the sources at hand.
It pairs the record with its declared kind name. -/
def envelope.New {α : Type} (namer : Kindify α) : Envelope α :=
  { Kind := namer.Kind, Data := namer.self }

/-- The type assertion `n.(envelope.Kindify)` in its two-result form: `some namer`
stands for `ok = true`. -/
def assertKindify {α : Type} (n : Record α) : Option (Kindify α) :=
  match n.kind with
  | some k => some { self := n, Kind := k }
  | none => none

/-- What the loops pass to `enc.Encode`: a bare record, a pointer to an
`Envelope`, or the slice `[]interface{}` of the buffered format. -/
inductive Encodable (α : Type) where
  | record (n : Record α) : Encodable α
  | envelope (e : Envelope α) : Encodable α
  | slice (buf : List (Record α)) : Encodable α
  deriving DecidableEq, Repr

/-- The `json.Encoder` created by `json.NewEncoder(w)`, as a parameter.  `σ` is
the state of the encoder and of the writer `w` behind it.  One call of `Encode`
either returns `nil` after handing the serialized unit `b` to `w` (`.ok b`), or
returns an error (`.error err`). -/
structure Encoder (σ α β : Type) where
  Encode : σ → Encodable α → σ × Except GoError β

/-- What one iteration of a format's `select` services. -/
inductive Event (α : Type) where
  | recv (n : Record α) : Event α
  | Done : Event α
  deriving DecidableEq, Repr

/-- State of an output format's `Init` loop together with what it has done so far. -/
structure OutputRun (σ α β : Type) where
  /-- State of `enc` (and of `w`). -/
  enc : σ
  /-- The units the writer `w` has received, oldest first. -/
  w : List β
  /-- The errors sent on `ctx.Errors`, oldest first. -/
  Errors : List GoError
  /-- The arguments of the calls of `enc.Encode`, oldest first. -/
  encoded : List (Encodable α)
  /-- The local slice `buf` of the buffered format (unused by the streaming one). -/
  buf : List (Record α)
  /-- Whether `Init` has returned. -/
  returned : Bool

/-- The state on entry to the loop, just after `json.NewEncoder(w)`; `buf` is the
nil slice. -/
def OutputRun.start {σ α β : Type} (s : σ) : OutputRun σ α β :=
  { enc := s, w := [], Errors := [], encoded := [], buf := [], returned := false }

/-! ## Streaming output format: `outputFormat.Init` -/

/-- Lines 99-101 of `jsonx.go`: rebinding of the local `n` before it is encoded. -/
def outputFormat.wrap {α : Type} (n : Record α) : Encodable α :=
  match assertKindify n with
  | some namer => Encodable.envelope (envelope.New namer)
  | none => Encodable.record n

/-- The call `enc.Encode(v)` followed by the error report with the given message. -/
def encodeAndReport {σ α β : Type} (E : Encoder σ α β) (msg : String)
    (st : OutputRun σ α β) (v : Encodable α) : OutputRun σ α β :=
  match E.Encode st.enc v with
  | (s, .ok b) => { st with enc := s, w := st.w ++ [b], encoded := st.encoded ++ [v] }
  | (s, .error err) =>
      { st with enc := s, Errors := st.Errors ++ [GoError.wrap msg err],
                encoded := st.encoded ++ [v] }

/-- The branch `case n := <-f.in` of `outputFormat.Init`. -/
def outputFormat.onRecv {σ α β : Type} (E : Encoder σ α β)
    (st : OutputRun σ α β) (n : Record α) : OutputRun σ α β :=
  encodeAndReport E "failed to encode to JSON" st (outputFormat.wrap n)

/-- The loop of `outputFormat.Init`, driven by the events its `select` services.
When the events run out the loop is blocked in `select` (`returned` stays false). -/
def outputFormat.Init {σ α β : Type} (E : Encoder σ α β) :
    OutputRun σ α β → List (Event α) → OutputRun σ α β
  | st, [] => st
  | st, Event.Done :: _ => { st with returned := true }
  | st, Event.recv n :: evs => outputFormat.Init E (outputFormat.onRecv E st n) evs

/-! ## Buffered output format: `bufferedOutputFormat.Init` -/

/-- The branch `case n := <-f.in` of `bufferedOutputFormat.Init`. -/
def bufferedOutputFormat.onRecv {σ α β : Type}
    (st : OutputRun σ α β) (n : Record α) : OutputRun σ α β :=
  { st with buf := st.buf ++ [n] }

/-- The branch `case <-ctx.StdContext.Done()` of `bufferedOutputFormat.Init`. -/
def bufferedOutputFormat.onDone {σ α β : Type} (E : Encoder σ α β)
    (st : OutputRun σ α β) : OutputRun σ α β :=
  { encodeAndReport E "failed to encode buffer to JSON" st (Encodable.slice st.buf) with
    returned := true }

/-- The loop of `bufferedOutputFormat.Init`, driven by the events its `select`
services. -/
def bufferedOutputFormat.Init {σ α β : Type} (E : Encoder σ α β) :
    OutputRun σ α β → List (Event α) → OutputRun σ α β
  | st, [] => st
  | st, Event.Done :: _ => bufferedOutputFormat.onDone E st
  | st, Event.recv n :: evs =>
      bufferedOutputFormat.Init E (bufferedOutputFormat.onRecv st n) evs

/-! ## Reference functions used to state the properties -/

/-- The outcomes of calling `Encode` on the values `vs` one after the other,
starting from encoder state `s`. -/
def encodeOutcomes {σ α β : Type} (E : Encoder σ α β) :
    σ → List (Encodable α) → List (Except GoError β)
  | _, [] => []
  | s, v :: vs => (E.Encode s v).2 :: encodeOutcomes E (E.Encode s v).1 vs

/-- The unit written by a successful call. -/
def okUnit {β : Type} : Except GoError β → Option β
  | .ok b => some b
  | .error _ => none

/-- The report sent on `ctx.Errors` for a failed call. -/
def errReport {β : Type} (msg : String) : Except GoError β → Option GoError
  | .ok _ => none
  | .error err => some (GoError.wrap msg err)

/-! ## Input format: `inputFormat.Init` -/

/-- State of the nested decode goroutine of one Stream Handle (lines 47-65 of
`jsonx.go`) together with what it has done so far. -/
structure DecodeRun (α : Type) where
  /-- The values sent on `i.out`, oldest first. -/
  out : List (Record α)
  /-- The errors sent on `ctx.Errors`, oldest first. -/
  Errors : List GoError
  /-- The number of calls of `ctx.Registry.DecodeJSON(dec)` made so far. -/
  calls : Nat
  /-- Whether the goroutine has returned. -/
  returned : Bool
  deriving DecidableEq, Repr

/-- The state of a decode goroutine that has just been started. -/
def DecodeRun.start {α : Type} : DecodeRun α :=
  { out := [], Errors := [], calls := 0, returned := false }

/-- One iteration of the body of the decode loop, `res` being what the call
`ctx.Registry.DecodeJSON(dec)` returns in it: `.error err` for a non-nil `err`,
`.ok n` for a nil one, `n` then being a non-nil value.  The debug logging of
lines 58-61 has no effect on the channels and is left out. -/
def inputFormat.decodeStep {α : Type} (st : DecodeRun α)
    (res : Except GoError (Record α)) : DecodeRun α :=
  match res with
  | .error err =>
      if err.isEOF then
        { st with calls := st.calls + 1, returned := true }
      else
        { st with calls := st.calls + 1,
                  Errors := st.Errors ++ [GoError.wrap "failed to decode input JSON" err] }
  | .ok n => { st with calls := st.calls + 1, out := st.out ++ [n] }

/-- The decode loop of one Stream Handle, driven by the results its decoder
returns, in order.  When the results run out the goroutine is blocked inside
`DecodeJSON` (`returned` stays false). -/
def inputFormat.decode {α : Type} :
    DecodeRun α → List (Except GoError (Record α)) → DecodeRun α
  | st, [] => st
  | st, res :: rest =>
      if (inputFormat.decodeStep st res).returned then inputFormat.decodeStep st res
      else inputFormat.decode (inputFormat.decodeStep st res) rest

/-- Several decode goroutines feeding the one channel `i.out`.  Stream Handles
are numbered; every value on the shared channels is logged with the number of
the handle whose goroutine sent it. -/
structure FanIn (α : Type) where
  /-- The shared channel `i.out`. -/
  out : List (Nat × Record α)
  /-- The shared channel `ctx.Errors`. -/
  Errors : List (Nat × GoError)
  /-- The results each handle's decoder has not returned yet. -/
  pending : Nat → List (Except GoError (Record α))
  /-- Which decode goroutines have returned. -/
  returned : Nat → Bool

/-- All decode goroutines just started; `streams h` lists the results the
decoder of handle `h` returns, in order. -/
def FanIn.start {α : Type} (streams : Nat → List (Except GoError (Record α))) : FanIn α :=
  { out := [], Errors := [], pending := streams, returned := fun _ => false }

/-- The scheduler lets the decode goroutine of handle `h` run one iteration of
its loop.  A goroutine that has returned, or whose decoder has nothing more to
return, does not move.  An iteration touches only the decoder of its own handle
and makes at most one send, so the order of the values on the shared channels is
the order in which the iterations complete their send: a step stands for that
moment. -/
def FanIn.step {α : Type} (st : FanIn α) (h : Nat) : FanIn α :=
  if st.returned h then st
  else
    match st.pending h with
    | [] => st
    | res :: rest =>
        let d := inputFormat.decodeStep DecodeRun.start res
        { out := st.out ++ d.out.map (fun n => (h, n)),
          Errors := st.Errors ++ d.Errors.map (fun e => (h, e)),
          pending := fun k => if k = h then rest else st.pending k,
          returned := fun k => if k = h then d.returned else st.returned k }

/-- The decode goroutines run interleaved: `sched` names, step by step, the
handle whose goroutine runs next. -/
def FanIn.run {α : Type} : FanIn α → List Nat → FanIn α
  | st, [] => st
  | st, h :: sched => FanIn.run (FanIn.step st h) sched

/-- The records on the shared channel that handle `h` sent, in channel order. -/
def FanIn.outOf {α : Type} (st : FanIn α) (h : Nat) : List (Record α) :=
  (st.out.filter (fun p => decide (p.1 = h))).map (fun p => p.2)

/-- What the two goroutines of one Stream Handle can do next: the decode
goroutine runs one iteration in which `DecodeJSON` returns `res`, or the outer
goroutine receives from `ctx.StdContext.Done()`. -/
inductive StreamEvent (α : Type) where
  | decoded (res : Except GoError (Record α)) : StreamEvent α
  | Done : StreamEvent α

/-- State of the pair of goroutines started for one Stream Handle (lines 39-68). -/
structure StreamRun (α : Type) where
  /-- The nested decode goroutine; its `Errors` is the channel `ctx.Errors`,
  which the outer goroutine sends on as well. -/
  dec : DecodeRun α
  /-- The number of calls of `r.Close()` made so far. -/
  closes : Nat
  /-- Whether the outer goroutine has returned. -/
  exited : Bool
  deriving DecidableEq, Repr

/-- Both goroutines of a Stream Handle just started. -/
def StreamRun.start {α : Type} : StreamRun α :=
  { dec := DecodeRun.start, closes := 0, exited := false }

/-- The deferred function of the outer goroutine (lines 40-44); `closeErr` is what
`r.Close()` returns. -/
def inputFormat.deferredClose {α : Type} (closeErr : Option GoError)
    (st : StreamRun α) : StreamRun α :=
  match closeErr with
  | some err =>
      { st with closes := st.closes + 1,
                dec := { st.dec with
                  Errors := st.dec.Errors ++
                    [GoError.wrap "failed to close JSON input format" err] } }
  | none => { st with closes := st.closes + 1 }

/-- One step of the goroutines of a Stream Handle.  The outer goroutine only
waits on `<-ctx.StdContext.Done()`; when that is serviced it returns, which runs
the deferred close. -/
def inputFormat.streamStep {α : Type} (closeErr : Option GoError)
    (st : StreamRun α) : StreamEvent α → StreamRun α
  | StreamEvent.decoded res =>
      if st.dec.returned then st
      else { st with dec := inputFormat.decodeStep st.dec res }
  | StreamEvent.Done =>
      if st.exited then st
      else inputFormat.deferredClose closeErr { st with exited := true }

/-- The goroutines of one Stream Handle, driven by a list of steps. -/
def inputFormat.stream {α : Type} (closeErr : Option GoError) :
    StreamRun α → List (StreamEvent α) → StreamRun α
  | st, [] => st
  | st, ev :: evs => inputFormat.stream closeErr (inputFormat.streamStep closeErr st ev) evs

/-- The reports of failed closes among the errors on `ctx.Errors`. -/
def closeReports (errs : List GoError) : List GoError :=
  errs.filter (fun e =>
    match e with
    | GoError.wrap msg _ => decide (msg = "failed to close JSON input format")
    | _ => false)

/-! ## The HTTP response record: `http.Response` -/

/-- The struct `Response` of `http/response.go`.  `int` and `int64` fields are
integers; a map is the list of its entries, a nil map or slice being the empty
list. -/
structure Response where
  ConnID : String
  TransactionID : Int
  Status : String
  StatusCode : Int
  Proto : String
  ProtoMajor : Int
  ProtoMinor : Int
  Header : List (String × List String)
  Body : String
  ContentLength : Int
  TransferEncoding : List String
  Close : Bool
  Uncompressed : Bool
  Trailer : List (String × List String)
  deriving DecidableEq, Repr

/-- The value of a field of `Response`, by Go type. -/
inductive GoValue where
  | string (s : String) : GoValue
  | int (i : Int) : GoValue
  | bool (b : Bool) : GoValue
  | strings (xs : List String) : GoValue
  | header (m : List (String × List String)) : GoValue
  deriving DecidableEq, Repr

/-- The test `isEmptyValue` by which `encoding/json` decides whether a field
tagged `omitempty` is left out: length zero for strings, slices and maps, zero
for integers, false for booleans. -/
def isEmptyValue : GoValue → Bool
  | .string s => decide (s.length = 0)
  | .int i => decide (i = 0)
  | .bool b => !b
  | .strings xs => decide (xs.length = 0)
  | .header m => decide (m.length = 0)

/-- One field of the struct with its `json:"..."` tag. -/
structure Field where
  /-- The key given in the tag. -/
  key : String
  /-- Whether the tag carries `,omitempty`. -/
  omitempty : Bool
  /-- The value of the field in a given `Response`. -/
  get : Response → GoValue

/-- The fields of `Response` in declaration order, with their tags (lines 12-25). -/
def Response.fields : List Field :=
  [ { key := "conn_id", omitempty := true, get := fun r => GoValue.string r.ConnID },
    { key := "transaction_id", omitempty := true, get := fun r => GoValue.int r.TransactionID },
    { key := "status", omitempty := true, get := fun r => GoValue.string r.Status },
    { key := "status_code", omitempty := true, get := fun r => GoValue.int r.StatusCode },
    { key := "proto", omitempty := true, get := fun r => GoValue.string r.Proto },
    { key := "proto_major", omitempty := true, get := fun r => GoValue.int r.ProtoMajor },
    { key := "proto_minor", omitempty := true, get := fun r => GoValue.int r.ProtoMinor },
    { key := "header", omitempty := true, get := fun r => GoValue.header r.Header },
    { key := "body", omitempty := true, get := fun r => GoValue.string r.Body },
    { key := "content_length", omitempty := true, get := fun r => GoValue.int r.ContentLength },
    { key := "transfer_encoding", omitempty := true,
      get := fun r => GoValue.strings r.TransferEncoding },
    { key := "close", omitempty := true, get := fun r => GoValue.bool r.Close },
    { key := "uncompressed", omitempty := true, get := fun r => GoValue.bool r.Uncompressed },
    { key := "trailer", omitempty := true, get := fun r => GoValue.header r.Trailer } ]

/-- The JSON object `encoding/json` produces for a `Response`: its members in
field order, a field tagged `omitempty` being left out when its value is empty. -/
def Response.marshal (r : Response) : List (String × GoValue) :=
  Response.fields.filterMap (fun f =>
    if f.omitempty && isEmptyValue (f.get r) then none else some (f.key, f.get r))

/-- The keys of the serialized object. -/
def Response.keys (r : Response) : List String :=
  r.marshal.map (fun kv => kv.1)

/-- The fields of the `*http.Response` of `net/http` that `NewResponse` reads;
`Body` stands for the body reader. -/
structure NetResponse (ρ : Type) where
  Status : String
  StatusCode : Int
  Proto : String
  ProtoMajor : Int
  ProtoMinor : Int
  Header : List (String × List String)
  Body : ρ
  ContentLength : Int
  TransferEncoding : List String
  Close : Bool
  Uncompressed : Bool
  Trailer : List (String × List String)

/-- The function `NewResponse`, the library calls `http.ReadResponse(b, nil)` and
`ioutil.ReadAll(res.Body)` being parameters. -/
def NewResponse {β ρ : Type} (ReadResponse : β → Except GoError (NetResponse ρ))
    (ReadAll : ρ → Except GoError String)
    (b : β) (connID : String) (transactionID : Int) : Except GoError Response :=
  match ReadResponse b with
  | .error err => .error (GoError.wrap "failed to read response" err)
  | .ok res =>
      match ReadAll res.Body with
      | .error err => .error (GoError.wrap "failed to read response body" err)
      | .ok body =>
          .ok { ConnID := connID,
                TransactionID := transactionID,
                Status := res.Status,
                StatusCode := res.StatusCode,
                Proto := res.Proto,
                ProtoMajor := res.ProtoMajor,
                ProtoMinor := res.ProtoMinor,
                Header := res.Header,
                Body := body,
                ContentLength := res.ContentLength,
                TransferEncoding := res.TransferEncoding,
                Close := res.Close,
                Uncompressed := res.Uncompressed,
                Trailer := res.Trailer }

/-! ## The pipe: `output/pipe.go` -/

/-- The struct `Pipe`; `Sink` is the state of the sink. -/
structure Pipe (φ σ : Type) where
  Format : φ
  Sink : σ
  Errors : List GoError

/-- The constructor `NewPipe`: `Errors` is left at its zero value. -/
def NewPipe {φ σ : Type} (f : φ) (s : σ) : Pipe φ σ :=
  { Format := f, Sink := s, Errors := [] }

/-- A pipe inside `Init`, with the units it has called `io.Copy` on so far. -/
structure PipeRun (φ σ υ : Type) where
  p : Pipe φ σ
  copied : List υ

/-- The body of the `range` loop of `Pipe.Init` for one unit `r`; `Copy s r` is
the effect of `io.Copy(p.Sink, r)` on the sink and the error it returns. -/
def Pipe.copyOne {φ σ υ : Type} (Copy : σ → υ → σ × Option GoError)
    (st : PipeRun φ σ υ) (r : υ) : PipeRun φ σ υ :=
  match Copy st.p.Sink r with
  | (s, some err) =>
      { p := { st.p with Sink := s, Errors := st.p.Errors ++ [err] },
        copied := st.copied ++ [r] }
  | (s, none) => { p := { st.p with Sink := s }, copied := st.copied ++ [r] }

/-- The loop `for r := range p.Format.Out()` of `Pipe.Init`; `units` are the
values the channel delivers before it is closed, in order, the goroutine started
by `go p.Format.Init(ctx)` being their producer. -/
def Pipe.Init {φ σ υ : Type} (Copy : σ → υ → σ × Option GoError) :
    PipeRun φ σ υ → List υ → PipeRun φ σ υ
  | st, [] => st
  | st, r :: units => Pipe.Init Copy (Pipe.copyOne Copy st r) units

/-- The errors returned by copying the units one after the other, starting from
sink state `s`. -/
def copyOutcomes {σ υ : Type} (Copy : σ → υ → σ × Option GoError) :
    σ → List υ → List (Option GoError)
  | _, [] => []
  | s, r :: units => (Copy s r).2 :: copyOutcomes Copy (Copy s r).1 units

/-- The elements of a collection handed to the encoder, each as the encoder meets
it when it walks the slice; a value that is no collection has none. -/
def Encodable.elements {α : Type} : Encodable α → List (Encodable α)
  | .slice buf => buf.map Encodable.record
  | .record _ => []
  | .envelope _ => []

/-- Whether a decode result is an error for which `errors.Is(err, io.EOF)` holds. -/
def isEOFResult {α : Type} : Except GoError (Record α) → Bool
  | .error err => err.isEOF
  | .ok _ => false

/-- The record of a successful decode. -/
def okRecord {α : Type} : Except GoError (Record α) → Option (Record α)
  | .ok n => some n
  | .error _ => none

/-- The report sent on `ctx.Errors` for a decode result that is an error but not
end of input. -/
def decodeReport {α : Type} : Except GoError (Record α) → Option GoError
  | .ok _ => none
  | .error err =>
      if err.isEOF then none else some (GoError.wrap "failed to decode input JSON" err)

/-- Whether a step of a Stream Handle is the servicing of cancellation. -/
def StreamEvent.isDone {α : Type} : StreamEvent α → Bool
  | .Done => true
  | .decoded _ => false

/-! ## Sample inputs -/

/-- An encoder that never fails; the unit it writes is the value it was given. -/
def idEncoder : Encoder Unit Nat (Encodable Nat) :=
  { Encode := fun _ v => ((), Except.ok v) }

/-- An encoder that numbers its calls and fails on the call numbered 1 (the
second one); the unit it writes otherwise is the value it was given. -/
def failSecond : Encoder Nat Nat (Encodable Nat) :=
  { Encode := fun s v =>
      (s + 1, if s = 1 then Except.error (GoError.other "write failed") else Except.ok v) }

/-- A record without the kind-naming capability. -/
def plainRecord : Record Nat := { value := 1, kind := none }

/-- A record whose type implements `envelope.Kindify`. -/
def kindRecord : Record Nat := { value := 2, kind := some "http.response" }

/-- The decoders of two Stream Handles: handle 0 returns a record, a malformed
input, a record and end of input; handle 1 returns a malformed input and a
record; no other handle returns anything. -/
def sampleStreams : Nat → List (Except GoError (Record Nat))
  | 0 => [Except.ok plainRecord, Except.error (GoError.other "invalid character"),
          Except.ok kindRecord, Except.error GoError.EOF]
  | 1 => [Except.error (GoError.other "unexpected end of JSON input"), Except.ok plainRecord]
  | _ => []

/-- A sink that counts the copies made into it and fails the copy numbered 1
(the second one). -/
def sampleCopy : Nat → String → Nat × Option GoError :=
  fun s _ => (s + 1, if s = 1 then some (GoError.other "short write") else none)

/-- A parsed response whose content length is unknown: `net/http` sets
`ContentLength` to -1; every other field has its zero value. -/
def unknownLength : NetResponse String :=
  { Status := "", StatusCode := 0, Proto := "", ProtoMajor := 0, ProtoMinor := 0,
    Header := [], Body := "", ContentLength := -1, TransferEncoding := [],
    Close := false, Uncompressed := false, Trailer := [] }

/-- A response with status 204, a closed connection and unknown content length. -/
def sampleResponse : Response :=
  { ConnID := "c1", TransactionID := 0, Status := "204 No Content", StatusCode := 204,
    Proto := "", ProtoMajor := 1, ProtoMinor := 0, Header := [], Body := "",
    ContentLength := -1, TransferEncoding := [], Close := true, Uncompressed := false,
    Trailer := [] }

/-! ## Lemmas on the output formats -/

theorem encodeAndReport_encoded {σ α β : Type} (E : Encoder σ α β) (msg : String)
    (st : OutputRun σ α β) (v : Encodable α) :
    (encodeAndReport E msg st v).encoded = st.encoded ++ [v] := by
  unfold encodeAndReport
  rcases h : E.Encode st.enc v with ⟨s, _ | _⟩ <;> simp

theorem encodeAndReport_enc {σ α β : Type} (E : Encoder σ α β) (msg : String)
    (st : OutputRun σ α β) (v : Encodable α) :
    (encodeAndReport E msg st v).enc = (E.Encode st.enc v).1 := by
  unfold encodeAndReport
  rcases h : E.Encode st.enc v with ⟨s, _ | _⟩ <;> simp

theorem encodeAndReport_w {σ α β : Type} (E : Encoder σ α β) (msg : String)
    (st : OutputRun σ α β) (v : Encodable α) :
    (encodeAndReport E msg st v).w = st.w ++ (okUnit (E.Encode st.enc v).2).toList := by
  unfold encodeAndReport
  rcases h : E.Encode st.enc v with ⟨s, _ | _⟩ <;> simp [okUnit]

theorem encodeAndReport_Errors {σ α β : Type} (E : Encoder σ α β) (msg : String)
    (st : OutputRun σ α β) (v : Encodable α) :
    (encodeAndReport E msg st v).Errors
      = st.Errors ++ (errReport msg (E.Encode st.enc v).2).toList := by
  unfold encodeAndReport
  rcases h : E.Encode st.enc v with ⟨s, _ | _⟩ <;> simp [errReport]

theorem encodeAndReport_returned {σ α β : Type} (E : Encoder σ α β) (msg : String)
    (st : OutputRun σ α β) (v : Encodable α) :
    (encodeAndReport E msg st v).returned = st.returned := by
  unfold encodeAndReport
  rcases h : E.Encode st.enc v with ⟨s, _ | _⟩ <;> simp

theorem encodeAndReport_buf {σ α β : Type} (E : Encoder σ α β) (msg : String)
    (st : OutputRun σ α β) (v : Encodable α) :
    (encodeAndReport E msg st v).buf = st.buf := by
  unfold encodeAndReport
  rcases h : E.Encode st.enc v with ⟨s, _ | _⟩ <;> simp

/-- Servicing the records `rs` and then the events `tail` is servicing `tail` from
the state reached after the records. -/
theorem outputFormat.streaming_Init_recvs {σ α β : Type} (E : Encoder σ α β)
    (rs : List (Record α)) (tail : List (Event α)) (st : OutputRun σ α β) :
    outputFormat.Init E st (rs.map Event.recv ++ tail)
      = outputFormat.Init E (rs.foldl (outputFormat.onRecv E) st) tail := by
  induction rs generalizing st with
  | nil => rfl
  | cons r rs ih => simp [outputFormat.Init, ih]

theorem outputFormat.feed_encoded {σ α β : Type} (E : Encoder σ α β)
    (rs : List (Record α)) (st : OutputRun σ α β) :
    (rs.foldl (outputFormat.onRecv E) st).encoded
      = st.encoded ++ rs.map outputFormat.wrap := by
  induction rs generalizing st with
  | nil => simp
  | cons r rs ih => simp [ih, outputFormat.onRecv, encodeAndReport_encoded]

theorem outputFormat.feed_w {σ α β : Type} (E : Encoder σ α β)
    (rs : List (Record α)) (st : OutputRun σ α β) :
    (rs.foldl (outputFormat.onRecv E) st).w
      = st.w ++ (encodeOutcomes E st.enc (rs.map outputFormat.wrap)).filterMap okUnit := by
  induction rs generalizing st with
  | nil => simp [encodeOutcomes]
  | cons r rs ih =>
      simp only [List.foldl_cons, ih, outputFormat.onRecv, encodeAndReport_w,
        encodeAndReport_enc, List.map_cons, encodeOutcomes, List.filterMap_cons]
      cases okUnit (E.Encode st.enc (outputFormat.wrap r)).2 <;> simp

theorem outputFormat.feed_Errors {σ α β : Type} (E : Encoder σ α β)
    (rs : List (Record α)) (st : OutputRun σ α β) :
    (rs.foldl (outputFormat.onRecv E) st).Errors
      = st.Errors ++ (encodeOutcomes E st.enc (rs.map outputFormat.wrap)).filterMap
          (errReport "failed to encode to JSON") := by
  induction rs generalizing st with
  | nil => simp [encodeOutcomes]
  | cons r rs ih =>
      simp only [List.foldl_cons, ih, outputFormat.onRecv, encodeAndReport_Errors,
        encodeAndReport_enc, List.map_cons, encodeOutcomes, List.filterMap_cons]
      cases errReport "failed to encode to JSON"
        (E.Encode st.enc (outputFormat.wrap r)).2 <;> simp

theorem outputFormat.feed_returned {σ α β : Type} (E : Encoder σ α β)
    (rs : List (Record α)) (st : OutputRun σ α β) :
    (rs.foldl (outputFormat.onRecv E) st).returned = st.returned := by
  induction rs generalizing st with
  | nil => simp
  | cons r rs ih => simp [ih, outputFormat.onRecv, encodeAndReport_returned]

theorem encodeOutcomes_length {σ α β : Type} (E : Encoder σ α β)
    (vs : List (Encodable α)) (s : σ) :
    (encodeOutcomes E s vs).length = vs.length := by
  induction vs generalizing s with
  | nil => rfl
  | cons v vs ih => simp [encodeOutcomes, ih]

/-- When every outcome is a success, the outcomes are the written units. -/
theorem filterMap_okUnit_of_all_ok {β : Type} (os : List (Except GoError β))
    (h : ∀ o ∈ os, ∃ b, o = Except.ok b) :
    os = (os.filterMap okUnit).map Except.ok := by
  induction os with
  | nil => rfl
  | cons o os ih =>
      obtain ⟨b, rfl⟩ := h o (List.mem_cons_self _ _)
      have ih2 := ih (fun o ho => h o (List.mem_cons_of_mem _ ho))
      simp only [List.filterMap_cons, okUnit, List.map_cons]
      rw [← ih2]

theorem bufferedOutputFormat.buffered_Init_recvs {σ α β : Type} (E : Encoder σ α β)
    (rs : List (Record α)) (tail : List (Event α)) (st : OutputRun σ α β) :
    bufferedOutputFormat.Init E st (rs.map Event.recv ++ tail)
      = bufferedOutputFormat.Init E { st with buf := st.buf ++ rs } tail := by
  induction rs generalizing st with
  | nil => simp
  | cons r rs ih => simp [bufferedOutputFormat.Init, ih, bufferedOutputFormat.onRecv]

/-! ## Streaming output format -/

/-- C1. Streaming Output Format: when the loop receives the records `rs` and
every encode of the run succeeds, the writer has received exactly as many units
as there are records, and the outcome of the encode call made for the i-th
record is the i-th unit of the writer, both while the loop still waits and once
it has serviced cancellation. -/
theorem streaming_writes_each_record_in_order {σ α β : Type} (E : Encoder σ α β) (s : σ)
    (rs : List (Record α)) (rest : List (Event α))
    (hok : ∀ o ∈ encodeOutcomes E s (rs.map outputFormat.wrap), ∃ b, o = Except.ok b) :
    (outputFormat.Init E (OutputRun.start s) (rs.map Event.recv ++ Event.Done :: rest)).w.length
        = rs.length
    ∧ encodeOutcomes E s (rs.map outputFormat.wrap)
        = (outputFormat.Init E (OutputRun.start s)
            (rs.map Event.recv ++ Event.Done :: rest)).w.map Except.ok
    ∧ (outputFormat.Init E (OutputRun.start s) (rs.map Event.recv)).w
        = (outputFormat.Init E (OutputRun.start s)
            (rs.map Event.recv ++ Event.Done :: rest)).w
    ∧ (outputFormat.Init E (OutputRun.start s)
        (rs.map Event.recv ++ Event.Done :: rest)).Errors = [] := by
  have hw : (outputFormat.Init E (OutputRun.start s)
      (rs.map Event.recv ++ Event.Done :: rest)).w
      = (encodeOutcomes E s (rs.map outputFormat.wrap)).filterMap okUnit := by
    rw [outputFormat.streaming_Init_recvs]
    simp [outputFormat.Init, outputFormat.feed_w, OutputRun.start]
  have hw2 : (outputFormat.Init E (OutputRun.start s) (rs.map Event.recv)).w
      = (encodeOutcomes E s (rs.map outputFormat.wrap)).filterMap okUnit := by
    have := outputFormat.streaming_Init_recvs E rs [] (OutputRun.start s)
    rw [List.append_nil] at this
    rw [this]
    simp [outputFormat.Init, outputFormat.feed_w, OutputRun.start]
  have hall := filterMap_okUnit_of_all_ok _ hok
  have hlen : ((encodeOutcomes E s (rs.map outputFormat.wrap)).filterMap okUnit).length
      = rs.length := by
    have h1 := congrArg List.length hall
    rw [encodeOutcomes_length, List.length_map, List.length_map] at h1
    exact h1.symm
  refine ⟨by rw [hw]; exact hlen, by rw [hw]; exact hall, by rw [hw, hw2], ?_⟩
  rw [outputFormat.streaming_Init_recvs]
  simp only [outputFormat.Init, outputFormat.feed_Errors, OutputRun.start, List.nil_append]
  rw [hall]
  simp [List.filterMap_map, Function.comp_def, errReport]

/-- Witness for C1: two records, one of them with the kind-naming capability,
through an encoder that never fails. -/
theorem streaming_writes_each_record_in_order_witness :
    (∀ o ∈ encodeOutcomes idEncoder () ([plainRecord, kindRecord].map outputFormat.wrap),
        ∃ b, o = Except.ok b)
    ∧ (outputFormat.Init idEncoder (OutputRun.start ())
        ([plainRecord, kindRecord].map Event.recv ++ Event.Done :: [])).w.length = 2 :=
  ⟨by simp [encodeOutcomes, idEncoder],
   (streaming_writes_each_record_in_order idEncoder () [plainRecord, kindRecord] []
      (by simp [encodeOutcomes, idEncoder])).1⟩

/-- C4. Envelope wrapping in the Streaming Output Format: the value handed to
the encoder for a received record is the envelope built from it exactly when the
record has the kind-naming capability, and the record itself otherwise; whether
it is an envelope depends only on the presence of the capability, and the
envelope holds the record as it was received. -/
theorem streaming_wraps_iff_kindify {σ α β : Type} (E : Encoder σ α β)
    (st : OutputRun σ α β) (n : Record α) :
    (outputFormat.onRecv E st n).encoded = st.encoded ++ [outputFormat.wrap n]
    ∧ outputFormat.wrap n
        = (match n.kind with
           | some k => Encodable.envelope (envelope.New { self := n, Kind := k })
           | none => Encodable.record n)
    ∧ ((∃ namer, assertKindify n = some namer
          ∧ outputFormat.wrap n = Encodable.envelope (envelope.New namer))
        ↔ n.kind.isSome = true)
    ∧ (outputFormat.wrap n = Encodable.record n ↔ n.kind.isSome = false)
    ∧ (∀ e, outputFormat.wrap n = Encodable.envelope e ↔ (e.Data = n ∧ n.kind = some e.Kind))
    ∧ (∀ m : Record α, n.kind.isSome = m.kind.isSome →
        ((∃ e, outputFormat.wrap n = Encodable.envelope e)
          ↔ (∃ e, outputFormat.wrap m = Encodable.envelope e))) := by
  refine ⟨?_, ?_, ?_, ?_, ?_, ?_⟩
  · simp [outputFormat.onRecv, encodeAndReport_encoded]
  · cases hk : n.kind <;> simp [outputFormat.wrap, assertKindify, hk]
  · cases hk : n.kind <;> simp [outputFormat.wrap, assertKindify, hk]
  · cases hk : n.kind <;> simp [outputFormat.wrap, assertKindify, hk]
  · intro e
    cases hk : n.kind with
    | none => simp [outputFormat.wrap, assertKindify, hk]
    | some k =>
        simp only [outputFormat.wrap, assertKindify, hk, envelope.New]
        constructor
        · intro h
          cases h
          simp
        · rintro ⟨h1, h2⟩
          cases e
          simp_all
  · intro m hm
    cases hk : n.kind <;> cases hk2 : m.kind <;>
      simp_all [outputFormat.wrap, assertKindify]

/-- Witness for C4: a record with the capability and one without. -/
theorem streaming_wraps_iff_kindify_witness :
    outputFormat.wrap kindRecord
        = Encodable.envelope { Kind := "http.response", Data := kindRecord }
    ∧ outputFormat.wrap plainRecord = Encodable.record plainRecord :=
  ⟨((streaming_wraps_iff_kindify idEncoder (OutputRun.start ()) kindRecord).2.2.2.2.1
      { Kind := "http.response", Data := kindRecord }).2 ⟨rfl, rfl⟩,
   (streaming_wraps_iff_kindify idEncoder (OutputRun.start ()) plainRecord).2.2.2.1.2 rfl⟩

/-- C5. Streaming Output Format and encode failures: whatever the outcomes of
the encode calls, the loop calls the encoder exactly once per received record,
in receipt order; the errors it reports are exactly the reports of the failed
calls, in call order, and the units written those of the successful ones; the
loop has not returned while it only receives records and has returned once
cancellation is serviced. -/
theorem streaming_continues_past_failures {σ α β : Type} (E : Encoder σ α β) (s : σ)
    (rs : List (Record α)) (rest : List (Event α)) :
    (outputFormat.Init E (OutputRun.start s) (rs.map Event.recv ++ Event.Done :: rest)).encoded
        = rs.map outputFormat.wrap
    ∧ (outputFormat.Init E (OutputRun.start s)
        (rs.map Event.recv ++ Event.Done :: rest)).Errors
        = (encodeOutcomes E s (rs.map outputFormat.wrap)).filterMap
            (errReport "failed to encode to JSON")
    ∧ (outputFormat.Init E (OutputRun.start s) (rs.map Event.recv ++ Event.Done :: rest)).w
        = (encodeOutcomes E s (rs.map outputFormat.wrap)).filterMap okUnit
    ∧ (encodeOutcomes E s (rs.map outputFormat.wrap)).length = rs.length
    ∧ (outputFormat.Init E (OutputRun.start s)
        (rs.map Event.recv ++ Event.Done :: rest)).returned = true
    ∧ (outputFormat.Init E (OutputRun.start s) (rs.map Event.recv)).returned = false
    ∧ (outputFormat.Init E (OutputRun.start s) (rs.map Event.recv)).encoded
        = rs.map outputFormat.wrap := by
  have h0 := outputFormat.streaming_Init_recvs E rs [] (OutputRun.start s)
  rw [List.append_nil] at h0
  refine ⟨?_, ?_, ?_, ?_, ?_, ?_, ?_⟩
  · rw [outputFormat.streaming_Init_recvs]
    simp [outputFormat.Init, outputFormat.feed_encoded, OutputRun.start]
  · rw [outputFormat.streaming_Init_recvs]
    simp [outputFormat.Init, outputFormat.feed_Errors, OutputRun.start]
  · rw [outputFormat.streaming_Init_recvs]
    simp [outputFormat.Init, outputFormat.feed_w, OutputRun.start]
  · simp [encodeOutcomes_length]
  · rw [outputFormat.streaming_Init_recvs]
    simp [outputFormat.Init]
  · rw [h0]
    simp [outputFormat.Init, outputFormat.feed_returned, OutputRun.start]
  · rw [h0]
    simp [outputFormat.Init, outputFormat.feed_encoded, OutputRun.start]

/-! ## Buffered output format -/

/-- C2. Buffered Output Format: while the loop only receives records the writer
has received nothing and no encode call has been made; once cancellation is
serviced exactly one encode call has been made, its argument is the slice of all
received records in receipt order (the empty slice when none was received), the
writer holds at most the one unit of that call, the loop has returned, and events
after the cancellation change nothing. -/
theorem buffered_emits_once_on_cancel {σ α β : Type} (E : Encoder σ α β) (s : σ)
    (rs : List (Record α)) (rest : List (Event α)) :
    (bufferedOutputFormat.Init E (OutputRun.start s) (rs.map Event.recv)).w = []
    ∧ (bufferedOutputFormat.Init E (OutputRun.start s) (rs.map Event.recv)).encoded = []
    ∧ (bufferedOutputFormat.Init E (OutputRun.start s) (rs.map Event.recv)).returned = false
    ∧ (bufferedOutputFormat.Init E (OutputRun.start s)
        (rs.map Event.recv ++ Event.Done :: rest)).encoded = [Encodable.slice rs]
    ∧ (bufferedOutputFormat.Init E (OutputRun.start s)
        (rs.map Event.recv ++ Event.Done :: rest)).w
        = (okUnit (E.Encode s (Encodable.slice rs)).2).toList
    ∧ (bufferedOutputFormat.Init E (OutputRun.start s)
        (rs.map Event.recv ++ Event.Done :: rest)).Errors
        = (errReport "failed to encode buffer to JSON"
            (E.Encode s (Encodable.slice rs)).2).toList
    ∧ (bufferedOutputFormat.Init E (OutputRun.start s)
        (rs.map Event.recv ++ Event.Done :: rest)).returned = true
    ∧ (bufferedOutputFormat.Init E (OutputRun.start s)
        (rs.map Event.recv ++ Event.Done :: rest)).w
        = (bufferedOutputFormat.Init E (OutputRun.start s)
            (rs.map Event.recv ++ [Event.Done])).w := by
  have h0 := bufferedOutputFormat.buffered_Init_recvs E rs [] (OutputRun.start s)
  rw [List.append_nil] at h0
  refine ⟨?_, ?_, ?_, ?_, ?_, ?_, ?_, ?_⟩
  · rw [h0]; simp [bufferedOutputFormat.Init, OutputRun.start]
  · rw [h0]; simp [bufferedOutputFormat.Init, OutputRun.start]
  · rw [h0]; simp [bufferedOutputFormat.Init, OutputRun.start]
  · rw [bufferedOutputFormat.buffered_Init_recvs]
    simp [bufferedOutputFormat.Init, bufferedOutputFormat.onDone, encodeAndReport_encoded,
      OutputRun.start]
  · rw [bufferedOutputFormat.buffered_Init_recvs]
    simp [bufferedOutputFormat.Init, bufferedOutputFormat.onDone, encodeAndReport_w,
      OutputRun.start]
  · rw [bufferedOutputFormat.buffered_Init_recvs]
    simp [bufferedOutputFormat.Init, bufferedOutputFormat.onDone, encodeAndReport_Errors,
      OutputRun.start]
  · rw [bufferedOutputFormat.buffered_Init_recvs]
    simp [bufferedOutputFormat.Init, bufferedOutputFormat.onDone]
  · rw [bufferedOutputFormat.buffered_Init_recvs, bufferedOutputFormat.buffered_Init_recvs]
    simp [bufferedOutputFormat.Init]

/-- The round trip of C3 holds for a record without the kind-naming capability and
for no other: the sole element of the collection the buffered format encodes is
what the streaming format encodes exactly when the record has no kind. -/
theorem roundtrip_iff_no_kind {σ α β : Type} (E : Encoder σ α β) (s : σ) (r : Record α) :
    (outputFormat.Init E (OutputRun.start s) [Event.recv r, Event.Done]).encoded
        = [outputFormat.wrap r]
    ∧ (bufferedOutputFormat.Init E (OutputRun.start s) [Event.recv r, Event.Done]).encoded
        = [Encodable.slice [r]]
    ∧ ((Encodable.slice [r]).elements = [outputFormat.wrap r] ↔ r.kind = none) := by
  refine ⟨?_, ?_, ?_⟩
  · simp [outputFormat.Init, outputFormat.onRecv, encodeAndReport_encoded, OutputRun.start]
  · simp [bufferedOutputFormat.Init, bufferedOutputFormat.onRecv, bufferedOutputFormat.onDone,
      encodeAndReport_encoded, OutputRun.start]
  · cases hk : r.kind <;> simp [Encodable.elements, outputFormat.wrap, assertKindify, hk]

/-- C3. For a record with the kind-naming capability the two output formats
disagree: the streaming format hands the encoder the envelope built from the
record, the buffered format hands it the slice whose sole element is the bare
record, and the two differ. -/
theorem roundtrip_differs_for_kindify :
    ∀ (σ β : Type) (E : Encoder σ Nat β) (s : σ),
      (outputFormat.Init E (OutputRun.start s) [Event.recv kindRecord, Event.Done]).encoded
          = [Encodable.envelope { Kind := "http.response", Data := kindRecord }]
      ∧ (bufferedOutputFormat.Init E (OutputRun.start s)
          [Event.recv kindRecord, Event.Done]).encoded = [Encodable.slice [kindRecord]]
      ∧ (Encodable.slice [kindRecord]).elements = [Encodable.record kindRecord]
      ∧ Encodable.envelope { Kind := "http.response", Data := kindRecord }
          ≠ Encodable.record kindRecord := by
  intro σ β E s
  refine ⟨?_, ?_, ?_, ?_⟩
  · simp [outputFormat.Init, outputFormat.onRecv, encodeAndReport_encoded, OutputRun.start,
      outputFormat.wrap, assertKindify, kindRecord, envelope.New]
  · simp [bufferedOutputFormat.Init, bufferedOutputFormat.onRecv, bufferedOutputFormat.onDone,
      encodeAndReport_encoded, OutputRun.start]
  · simp [Encodable.elements]
  · simp

/-! ## Input format -/

/-- The decode loop from a state that has not returned: it forwards the records
and reports the failures that precede the first end-of-input result. -/
theorem inputFormat.decode_spec {α : Type} (results : List (Except GoError (Record α)))
    (st : DecodeRun α) (h : st.returned = false) :
    inputFormat.decode st results
      = { out := st.out ++ (results.takeWhile (fun r => !isEOFResult r)).filterMap okRecord,
          Errors := st.Errors
            ++ (results.takeWhile (fun r => !isEOFResult r)).filterMap decodeReport,
          calls := st.calls + (results.takeWhile (fun r => !isEOFResult r)).length
            + (if results.any isEOFResult then 1 else 0),
          returned := results.any isEOFResult } := by
  induction results generalizing st with
  | nil => cases st; simp_all [inputFormat.decode]
  | cons res rest ih =>
      cases res with
      | ok n =>
          have hs : (inputFormat.decodeStep st (Except.ok n)).returned = false := by
            simp [inputFormat.decodeStep, h]
          simp only [inputFormat.decode, hs]
          rw [ih _ hs]
          simp [inputFormat.decodeStep, isEOFResult, okRecord, decodeReport]
          omega
      | error err =>
          cases he : err.isEOF with
          | true =>
              simp [inputFormat.decode, inputFormat.decodeStep, he, isEOFResult]
          | false =>
              have hs : (inputFormat.decodeStep st (Except.error err)).returned = false := by
                simp [inputFormat.decodeStep, he, h]
              simp only [inputFormat.decode, hs]
              rw [ih _ hs]
              simp [inputFormat.decodeStep, isEOFResult, okRecord, decodeReport, he]
              omega

/-- C6. Decode loop of one Stream Handle: for every sequence of decode results,
the records forwarded are the successfully decoded ones that precede the first
end-of-input result, in decode order; the errors reported are one per failure
that is not end of input and precedes it, in order; the goroutine returns exactly
when an end-of-input result occurs, and the number of decode calls is the number
of results before that one plus one for it. -/
theorem decode_loop_forwards_until_eof {α : Type}
    (results : List (Except GoError (Record α))) :
    (inputFormat.decode DecodeRun.start results).out
        = (results.takeWhile (fun r => !isEOFResult r)).filterMap okRecord
    ∧ (inputFormat.decode DecodeRun.start results).Errors
        = (results.takeWhile (fun r => !isEOFResult r)).filterMap decodeReport
    ∧ (inputFormat.decode DecodeRun.start results).returned = results.any isEOFResult
    ∧ (inputFormat.decode DecodeRun.start results).calls
        = (results.takeWhile (fun r => !isEOFResult r)).length
          + (if results.any isEOFResult then 1 else 0) := by
  rw [inputFormat.decode_spec results DecodeRun.start rfl]
  simp [DecodeRun.start]

/-- Running on from a state that has not returned forwards what a fresh loop
forwards, after what was forwarded before. -/
theorem inputFormat.decode_out_from {α : Type} (results : List (Except GoError (Record α)))
    (st : DecodeRun α) (h : st.returned = false) :
    (inputFormat.decode st results).out
      = st.out ++ (inputFormat.decode DecodeRun.start results).out := by
  rw [inputFormat.decode_spec results st h, inputFormat.decode_spec results DecodeRun.start rfl]
  simp [DecodeRun.start]

theorem FanIn.outOf_step_other {α : Type} (st : FanIn α) (h k : Nat) (hk : k ≠ h) :
    (FanIn.step st k).outOf h = st.outOf h
    ∧ (FanIn.step st k).pending h = st.pending h
    ∧ (FanIn.step st k).returned h = st.returned h := by
  have hne : h ≠ k := fun e => hk e.symm
  unfold FanIn.step
  cases hr : st.returned k with
  | true => simp
  | false =>
      cases hp : st.pending k with
      | nil => simp
      | cons res rest =>
          simp [FanIn.outOf, List.filter_append, List.filter_map, Function.comp_def, hk, hne]

/-- What the goroutine of handle `h` has put on the shared channel after any
schedule, from any state: what was there, followed by what a decode loop of its
own forwards from the results the schedule lets it consume. -/
theorem FanIn.run_outOf {α : Type} (sched : List Nat) (h : Nat) (st : FanIn α) :
    (FanIn.run st sched).outOf h
      = st.outOf h ++
          (if st.returned h then []
           else (inputFormat.decode DecodeRun.start
                  ((st.pending h).take (sched.count h))).out) := by
  induction sched generalizing st with
  | nil => cases hr : st.returned h <;> simp [FanIn.run, inputFormat.decode, DecodeRun.start]
  | cons k sched ih =>
      simp only [FanIn.run]
      rw [ih]
      by_cases hk : k = h
      · subst hk
        simp only [List.count_cons_self]
        cases hr : st.returned k with
        | true => simp [FanIn.step, hr]
        | false =>
            cases hp : st.pending k with
            | nil => simp [FanIn.step, hr, hp, inputFormat.decode, DecodeRun.start]
            | cons res rest =>
                have hout : (FanIn.step st k).outOf k
                    = st.outOf k ++ (inputFormat.decodeStep DecodeRun.start res).out := by
                  simp [FanIn.step, hr, hp, FanIn.outOf, List.filter_append, List.filter_map,
                    Function.comp_def]
                have hret : (FanIn.step st k).returned k
                    = (inputFormat.decodeStep DecodeRun.start res).returned := by
                  simp [FanIn.step, hr, hp]
                have hpend : (FanIn.step st k).pending k = rest := by
                  simp [FanIn.step, hr, hp]
                rw [hout, hret, hpend]
                simp only [List.take_succ_cons, inputFormat.decode]
                cases hd : (inputFormat.decodeStep DecodeRun.start res).returned with
                | true => simp
                | false =>
                    simp only [Bool.false_eq_true, if_false]
                    rw [inputFormat.decode_out_from _ _ hd]
                    simp
      · obtain ⟨h1, h2, h3⟩ := FanIn.outOf_step_other st h k hk
        have hne : h ≠ k := fun e => hk e.symm
        rw [h1, h2, h3, List.count_cons_of_ne hne]

/-- C8. Cross-handle independence in the Input Format: whatever the schedule of
the decode goroutines, the records on the shared channel that come from handle
`h` are, in order, those a decode loop of its own forwards from the results the
schedule lets it consume; once the schedule lets it consume all its results they
are its successfully decoded records before its first end of input, in decode
order; and they do not depend on what the decoders of the other handles return. -/
theorem fanin_preserves_each_handle {α : Type}
    (streams : Nat → List (Except GoError (Record α))) (sched : List Nat) (h : Nat) :
    (FanIn.run (FanIn.start streams) sched).outOf h
        = (inputFormat.decode DecodeRun.start ((streams h).take (sched.count h))).out
    ∧ ((streams h).length ≤ sched.count h →
        (FanIn.run (FanIn.start streams) sched).outOf h
          = ((streams h).takeWhile (fun r => !isEOFResult r)).filterMap okRecord)
    ∧ (∀ others : Nat → List (Except GoError (Record α)), others h = streams h →
        (FanIn.run (FanIn.start others) sched).outOf h
          = (FanIn.run (FanIn.start streams) sched).outOf h) := by
  have key : ∀ str : Nat → List (Except GoError (Record α)),
      (FanIn.run (FanIn.start str) sched).outOf h
        = (inputFormat.decode DecodeRun.start ((str h).take (sched.count h))).out := by
    intro str
    rw [FanIn.run_outOf]
    simp [FanIn.start, FanIn.outOf]
  refine ⟨key streams, ?_, ?_⟩
  · intro hlen
    rw [key streams, List.take_of_length_le hlen,
      inputFormat.decode_spec _ DecodeRun.start rfl]
    simp [DecodeRun.start]
  · intro others ho
    rw [key others, key streams, ho]

/-- Witness for C8: two handles, the first of which meets a decode error between
its two records while the second starts with one. -/
theorem fanin_preserves_each_handle_witness :
    (sampleStreams 0).length ≤ [0, 1, 0, 1, 0, 0].count 0
    ∧ (FanIn.run (FanIn.start sampleStreams) [0, 1, 0, 1, 0, 0]).outOf 0
        = [plainRecord, kindRecord] :=
  ⟨by decide,
   ((fanin_preserves_each_handle sampleStreams [0, 1, 0, 1, 0, 0] 0).2.1 (by decide)).trans
     (by decide)⟩

theorem closeReports_append (a b : List GoError) :
    closeReports (a ++ b) = closeReports a ++ closeReports b := by
  simp [closeReports]

theorem closeReports_decodeStep {α : Type} (st : DecodeRun α)
    (res : Except GoError (Record α)) :
    closeReports (inputFormat.decodeStep st res).Errors = closeReports st.Errors := by
  cases res with
  | ok n => simp [inputFormat.decodeStep]
  | error err =>
      cases he : err.isEOF with
      | true => simp [inputFormat.decodeStep, he]
      | false =>
          simp only [inputFormat.decodeStep, he, closeReports_append]
          simp [closeReports]

/-- The closes, the exit of the outer goroutine and the close reports after any
list of steps, from any state. -/
theorem inputFormat.stream_spec {α : Type} (closeErr : Option GoError)
    (evs : List (StreamEvent α)) (st : StreamRun α) :
    (inputFormat.stream closeErr st evs).closes
        = st.closes + (if !st.exited && evs.any StreamEvent.isDone then 1 else 0)
    ∧ (inputFormat.stream closeErr st evs).exited
        = (st.exited || evs.any StreamEvent.isDone)
    ∧ closeReports (inputFormat.stream closeErr st evs).dec.Errors
        = closeReports st.dec.Errors
          ++ (if !st.exited && evs.any StreamEvent.isDone then
                (closeErr.map (GoError.wrap "failed to close JSON input format")).toList
              else []) := by
  induction evs generalizing st with
  | nil => simp [inputFormat.stream]
  | cons ev evs ih =>
      simp only [inputFormat.stream]
      obtain ⟨h1, h2, h3⟩ := ih (inputFormat.streamStep closeErr st ev)
      rw [h1, h2, h3]
      cases ev with
      | decoded res =>
          cases hr : st.dec.returned with
          | true => simp [inputFormat.streamStep, hr, StreamEvent.isDone]
          | false =>
              simp [inputFormat.streamStep, hr, StreamEvent.isDone, closeReports_decodeStep]
      | Done =>
          cases hx : st.exited with
          | true => simp [inputFormat.streamStep, hx, StreamEvent.isDone]
          | false =>
              cases closeErr with
              | none =>
                  simp [inputFormat.streamStep, hx, StreamEvent.isDone,
                    inputFormat.deferredClose]
              | some err =>
                  simp [inputFormat.streamStep, hx, StreamEvent.isDone,
                    inputFormat.deferredClose, closeReports_append]
                  simp [closeReports]

/-- C10. Closing of a Stream Handle: whatever the steps of its two goroutines,
`Close` has been called once if cancellation has been serviced and not at all
otherwise (whether or not the decode goroutine has met end of input); the outer
goroutine has returned exactly when cancellation has been serviced; and the
close reports on the error channel are the one report of the failed close when
cancellation has been serviced and the close fails, and none otherwise. -/
theorem stream_closed_once_on_cancel {α : Type} (closeErr : Option GoError)
    (evs : List (StreamEvent α)) :
    (inputFormat.stream closeErr StreamRun.start evs).closes
        = (if evs.any StreamEvent.isDone then 1 else 0)
    ∧ (inputFormat.stream closeErr StreamRun.start evs).exited = evs.any StreamEvent.isDone
    ∧ closeReports (inputFormat.stream closeErr StreamRun.start evs).dec.Errors
        = (if evs.any StreamEvent.isDone then
             (closeErr.map (GoError.wrap "failed to close JSON input format")).toList
           else []) := by
  obtain ⟨h1, h2, h3⟩ := inputFormat.stream_spec closeErr evs (StreamRun.start : StreamRun α)
  refine ⟨?_, ?_, ?_⟩
  · rw [h1]; simp [StreamRun.start]
  · rw [h2]; simp [StreamRun.start]
  · rw [h3]; simp [StreamRun.start, DecodeRun.start, closeReports]

/-! ## The pipe -/

theorem Pipe.Init_spec {φ σ υ : Type} (Copy : σ → υ → σ × Option GoError)
    (units : List υ) (st : PipeRun φ σ υ) :
    (Pipe.Init Copy st units).copied = st.copied ++ units
    ∧ (Pipe.Init Copy st units).p.Errors
        = st.p.Errors ++ (copyOutcomes Copy st.p.Sink units).filterMap id
    ∧ (Pipe.Init Copy st units).p.Format = st.p.Format := by
  induction units generalizing st with
  | nil => simp [Pipe.Init, copyOutcomes]
  | cons r units ih =>
      simp only [Pipe.Init]
      obtain ⟨h1, h2, h3⟩ := ih (Pipe.copyOne Copy st r)
      rw [h1, h2, h3]
      unfold Pipe.copyOne
      rcases hc : Copy st.p.Sink r with ⟨s, _ | err⟩ <;> simp [copyOutcomes, hc]

theorem copyOutcomes_length {σ υ : Type} (Copy : σ → υ → σ × Option GoError)
    (units : List υ) (s : σ) : (copyOutcomes Copy s units).length = units.length := by
  induction units generalizing s with
  | nil => rfl
  | cons r units ih => simp [copyOutcomes, ih]

/-- C7. The pipe accumulates copy errors without aborting: for a pipe made by
`NewPipe` and every list of units delivered on `Out()`, whatever the outcome of
each copy, `Init` calls the copy exactly once per unit, in delivery order, and
when it returns `Errors` is the list of the errors of the failed copies, in that
order, so that its length is the number of failed copies. -/
theorem pipe_accumulates_copy_errors {φ σ υ : Type} (Copy : σ → υ → σ × Option GoError)
    (f : φ) (s : σ) (units : List υ) :
    (NewPipe f s).Errors = []
    ∧ (Pipe.Init Copy { p := NewPipe f s, copied := [] } units).copied = units
    ∧ (copyOutcomes Copy s units).length = units.length
    ∧ (Pipe.Init Copy { p := NewPipe f s, copied := [] } units).p.Errors
        = (copyOutcomes Copy s units).filterMap id
    ∧ (Pipe.Init Copy { p := NewPipe f s, copied := [] } units).p.Errors.length
        = (copyOutcomes Copy s units).countP Option.isSome := by
  obtain ⟨h1, h2, _⟩ := Pipe.Init_spec Copy units
    ({ p := NewPipe f s, copied := [] } : PipeRun φ σ υ)
  refine ⟨rfl, ?_, copyOutcomes_length Copy units s, ?_, ?_⟩
  · rw [h1]; simp
  · rw [h2]; simp [NewPipe]
  · rw [h2]
    simp only [NewPipe, List.nil_append]
    generalize copyOutcomes Copy s units = os
    induction os with
    | nil => rfl
    | cons o os ih => cases o <;> simp [List.filterMap_cons, List.countP_cons, ih]

/-! ## The HTTP response record -/

theorem mem_keys_iff (r : Response) (k : String) :
    k ∈ r.keys ↔ ∃ f ∈ Response.fields,
      (f.omitempty && isEmptyValue (f.get r)) = false ∧ f.key = k := by
  unfold Response.keys Response.marshal
  simp only [List.mem_map, List.mem_filterMap]
  constructor
  · rintro ⟨kv, ⟨f, hf, hkv⟩, rfl⟩
    refine ⟨f, hf, ?_⟩
    cases hc : (f.omitempty && isEmptyValue (f.get r)) with
    | true => simp [hc] at hkv
    | false =>
        simp only [hc, Bool.false_eq_true, if_false, Option.some.injEq] at hkv
        subst hkv
        exact ⟨rfl, rfl⟩
  · rintro ⟨f, hf, hc, rfl⟩
    exact ⟨(f.key, f.get r), ⟨f, hf, by simp [hc]⟩, rfl⟩

/-- C9. Wire shape of a `Response`: each of the fourteen keys is present in the
serialized object exactly when the value of its field is non-zero (non-empty
string, non-zero integer, true, non-empty map or list); no other key occurs; and
a negative content length is emitted, with its value. -/
theorem response_key_present_iff_nonzero (r : Response) :
    ("conn_id" ∈ r.keys ↔ r.ConnID ≠ "")
    ∧ ("transaction_id" ∈ r.keys ↔ r.TransactionID ≠ 0)
    ∧ ("status" ∈ r.keys ↔ r.Status ≠ "")
    ∧ ("status_code" ∈ r.keys ↔ r.StatusCode ≠ 0)
    ∧ ("proto" ∈ r.keys ↔ r.Proto ≠ "")
    ∧ ("proto_major" ∈ r.keys ↔ r.ProtoMajor ≠ 0)
    ∧ ("proto_minor" ∈ r.keys ↔ r.ProtoMinor ≠ 0)
    ∧ ("header" ∈ r.keys ↔ r.Header ≠ [])
    ∧ ("body" ∈ r.keys ↔ r.Body ≠ "")
    ∧ ("content_length" ∈ r.keys ↔ r.ContentLength ≠ 0)
    ∧ ("transfer_encoding" ∈ r.keys ↔ r.TransferEncoding ≠ [])
    ∧ ("close" ∈ r.keys ↔ r.Close = true)
    ∧ ("uncompressed" ∈ r.keys ↔ r.Uncompressed = true)
    ∧ ("trailer" ∈ r.keys ↔ r.Trailer ≠ [])
    ∧ (∀ k ∈ r.keys, k ∈ Response.fields.map (fun f => f.key))
    ∧ (∀ n : Nat, ("content_length", GoValue.int (Int.negSucc n))
        ∈ ({ r with ContentLength := Int.negSucc n } : Response).marshal) := by
  have hs : ∀ s : String, s.length = 0 ↔ s = "" := by
    intro s
    constructor
    · intro h
      exact String.ext (List.length_eq_zero.mp h)
    · rintro rfl
      rfl
  refine ⟨?_, ?_, ?_, ?_, ?_, ?_, ?_, ?_, ?_, ?_, ?_, ?_, ?_, ?_, ?_, ?_⟩
  all_goals first
    | (rw [mem_keys_iff]; simp [Response.fields, isEmptyValue, hs])
    | skip
  · intro k hk
    rw [mem_keys_iff] at hk
    obtain ⟨f, hf, _, rfl⟩ := hk
    exact List.mem_map_of_mem _ hf
  · intro n
    simp [Response.marshal, Response.fields, isEmptyValue]

/-- Witness for C9: a response with unknown content length and several zero
fields. -/
theorem response_key_present_iff_nonzero_witness :
    "content_length" ∈ sampleResponse.keys
    ∧ "close" ∈ sampleResponse.keys
    ∧ ¬ "body" ∈ sampleResponse.keys
    ∧ "conn_id" ∈ Response.fields.map (fun f => f.key) :=
  ⟨(response_key_present_iff_nonzero sampleResponse).2.2.2.2.2.2.2.2.2.1.2 (by decide),
   (response_key_present_iff_nonzero sampleResponse).2.2.2.2.2.2.2.2.2.2.2.1.2 rfl,
   fun h => (response_key_present_iff_nonzero sampleResponse).2.2.2.2.2.2.2.2.1.1 h rfl,
   (response_key_present_iff_nonzero sampleResponse).2.2.2.2.2.2.2.2.2.2.2.2.2.2.1 "conn_id"
     ((response_key_present_iff_nonzero sampleResponse).1.2 (by decide))⟩

/-- A response read with unknown content length serializes with the key
`content_length` and the value -1, the zero-valued fields being left out. -/
theorem NewResponse_unknown_length :
    (match NewResponse (fun _ : Unit => Except.ok unknownLength)
        (fun body => Except.ok body) () "c1" 7 with
     | .ok r => r.marshal
     | .error _ => [])
      = [("conn_id", GoValue.string "c1"), ("transaction_id", GoValue.int 7),
         ("content_length", GoValue.int (-1))] := by
  decide

/-! ## Worked runs -/

/-- Three records through an encoder failing on its second call: three encode
calls, the units of the first and the third written, one error reported. -/
theorem streaming_run_with_failure :
    (outputFormat.Init failSecond (OutputRun.start 0)
        [Event.recv plainRecord, Event.recv kindRecord, Event.recv plainRecord,
         Event.Done]).encoded
        = [Encodable.record plainRecord,
           Encodable.envelope { Kind := "http.response", Data := kindRecord },
           Encodable.record plainRecord]
    ∧ (outputFormat.Init failSecond (OutputRun.start 0)
        [Event.recv plainRecord, Event.recv kindRecord, Event.recv plainRecord,
         Event.Done]).w
        = [Encodable.record plainRecord, Encodable.record plainRecord]
    ∧ (outputFormat.Init failSecond (OutputRun.start 0)
        [Event.recv plainRecord, Event.recv kindRecord, Event.recv plainRecord,
         Event.Done]).Errors
        = [GoError.wrap "failed to encode to JSON" (GoError.other "write failed")] := by
  decide

/-- Two records and then cancellation through the buffered format: one unit, the
slice of both records. -/
theorem buffered_run_two_records :
    (bufferedOutputFormat.Init idEncoder (OutputRun.start ())
        [Event.recv plainRecord, Event.recv kindRecord]).w = []
    ∧ (bufferedOutputFormat.Init idEncoder (OutputRun.start ())
        [Event.recv plainRecord, Event.recv kindRecord, Event.Done]).w
        = [Encodable.slice [plainRecord, kindRecord]] := by
  decide

/-- The decode loop on the results of handle 0: both records forwarded, the one
malformed input reported, four decode calls, returned. -/
theorem decode_run_sample :
    inputFormat.decode DecodeRun.start (sampleStreams 0)
      = { out := [plainRecord, kindRecord],
          Errors := [GoError.wrap "failed to decode input JSON"
                      (GoError.other "invalid character")],
          calls := 4, returned := true } := by
  decide

/-- Three units through a sink failing its second copy: three copies, one error. -/
theorem pipe_run_with_failure :
    (Pipe.Init sampleCopy { p := NewPipe () 0, copied := [] } ["a", "b", "c"]).copied
        = ["a", "b", "c"]
    ∧ (Pipe.Init sampleCopy { p := NewPipe () 0, copied := [] } ["a", "b", "c"]).p.Errors
        = [GoError.other "short write"] := by
  decide

/-- A handle whose decoder meets end of input is not closed before cancellation
is serviced, and is closed once after, further servicing changing nothing. -/
theorem stream_run_sample :
    (inputFormat.stream (some (GoError.other "already closed")) StreamRun.start
        [StreamEvent.decoded (Except.ok plainRecord),
         StreamEvent.decoded (Except.error GoError.EOF)]).closes = 0
    ∧ (inputFormat.stream (some (GoError.other "already closed")) StreamRun.start
        [StreamEvent.decoded (Except.ok plainRecord),
         StreamEvent.decoded (Except.error GoError.EOF), StreamEvent.Done,
         StreamEvent.Done]).closes = 1
    ∧ (inputFormat.stream (some (GoError.other "already closed")) StreamRun.start
        [StreamEvent.decoded (Except.ok plainRecord),
         StreamEvent.decoded (Except.error GoError.EOF), StreamEvent.Done,
         StreamEvent.Done]).dec.Errors
        = [GoError.wrap "failed to close JSON input format"
            (GoError.other "already closed")] := by
  decide

end Vhs
